import Mathlib

/-!
Shallow embedding of the ESP-NOW multi-poi synchronization core
(`esp32_firmware/src/espnow_sync.h`, class `ESPNowSync`).

Modelling conventions:
* A MAC address (6 raw bytes in the source) is a `List Nat`.
* C strings (`char[n]` fields manipulated with `strncpy`) are byte lists;
  `cstr` truncates at the first NUL byte, mirroring C string semantics.
* `millis()` is passed in explicitly as a `now : Nat` parameter; `unsigned
  long` subtraction is 32-bit, modelled by `elapsed` with an explicit
  `% 2^32`.
* Each transport send (`esp_now_send` via `sendMessage`) is recorded as a
  `Send` value carrying the destination MAC and the typed payload handed to
  `sendMessage`; the `_seq` byte counter increments mod 256 per send.
* Invocations of the registered host callbacks are recorded as `Event`
  values (the model always records the notification; in the source it is
  delivered only when a callback pointer is registered).
* Registrations/deregistrations with the ESP-NOW transport
  (`registerESPNowPeer` / `esp_now_del_peer`) are recorded as
  `TransportOp` values.
-/

/-- Source `PeerState` enum of the source (values 0..3). -/
inductive PeerState where
  | NONE
  | DISCOVERING
  | PAIR_SENT
  | PAIRED
deriving DecidableEq, Repr

/-- Source `SyncMode` enum: MIRROR = 0 (default), INDEPENDENT = 1. -/
inductive SyncMode where
  | MIRROR
  | INDEPENDENT
deriving DecidableEq, Repr

/-- A MAC address: 6 raw bytes in the source. -/
abbrev Mac := List Nat

/-- Source `struct SyncPeer`: one registry record. -/
structure SyncPeer where
  mac : Mac
  name : List Nat
  state : PeerState
  lastSeen : Nat
  currentMode : Nat
  currentIndex : Nat
  brightness : Nat
  online : Bool
deriving DecidableEq, Repr

instance : Inhabited SyncPeer :=
  ⟨{ mac := [], name := [], state := PeerState.NONE, lastSeen := 0,
     currentMode := 0, currentIndex := 0, brightness := 0, online := false }⟩

/-- The mutable state of an `ESPNowSync` instance (fields `_peers` with
`_peerCount` flattened into a list, `_syncMode`, `_seq`, `_localMac`,
`_localName`, `_timeOffset`, `_autoPairEnabled` and the local-state
snapshot used by heartbeats). -/
structure SyncState where
  peers : List SyncPeer
  syncMode : SyncMode
  seq : Nat
  localMac : Mac
  localName : List Nat
  timeOffset : Int
  autoPairEnabled : Bool
  localMode : Nat
  localIndex : Nat
  localBrightness : Nat
  localFrameDelay : Nat
deriving DecidableEq, Repr

/-- Typed payload handed to `sendMessage`, one constructor per message
type of the wire protocol. -/
inductive MsgOut where
  | pairRequest (mac : Mac) (name : List Nat) (accepted : Nat)
  | pairResponse (mac : Mac) (name : List Nat) (accepted : Nat)
  | unpair
  | setMode (mode idx : Nat)
  | setPattern (idx ty r1 g1 b1 r2 g2 b2 speed : Nat)
  | setBrightness (b : Nat)
  | setFrameRate (d : Nat)
  | heartbeat (mode idx brightness frameDelay uptime syncMode : Nat) (name : List Nat)
  | syncTime (ms : Nat)
deriving DecidableEq, Repr

/-- One outbound transport send: destination MAC plus typed payload. -/
structure Send where
  dest : Mac
  msg : MsgOut
deriving DecidableEq, Repr

/-- Host callback invocation, one constructor per registered callback. -/
inductive Event where
  | onModeChange (mode idx : Nat)
  | onPattern (idx ty r1 g1 b1 r2 g2 b2 speed : Nat)
  | onBrightness (b : Nat)
  | onFrameRate (d : Nat)
  | onSyncTime (off : Int)
  | onPeerUpdate (p : SyncPeer)
deriving DecidableEq, Repr

/-- ESP-NOW transport peer-table operation (`registerESPNowPeer` /
`esp_now_del_peer`). -/
inductive TransportOp where
  | add (mac : Mac)
  | del (mac : Mac)
deriving DecidableEq, Repr

/-- Result of one inbound-message handler: the new state plus the sends,
callback invocations and transport operations it performed, in order. -/
structure HResult where
  st : SyncState
  sends : List Send
  events : List Event
  transport : List TransportOp
deriving DecidableEq, Repr

/-- A handler path that does nothing (early `return`). -/
def noop (s : SyncState) : HResult := ⟨s, [], [], []⟩

/-- Source `MAX_SYNC_PEERS` (6). -/
def MAX_SYNC_PEERS : Nat := 6

/-- C-string value of a byte buffer: the bytes before the first NUL. -/
def cstr (bs : List Nat) : List Nat := bs.takeWhile (fun b => b ≠ 0)

/-- Source `unsigned long` (32-bit) subtraction `now - last`, as used in the
timeout comparisons. -/
def elapsed (now last : Nat) : Nat :=
  (now % 2 ^ 32 + 2 ^ 32 - last % 2 ^ 32) % 2 ^ 32

/-- Reinterpret a `uint32` value as `int32` (two's complement). -/
def toInt32 (x : Nat) : Int :=
  if x % 2 ^ 32 < 2 ^ 31 then ((x % 2 ^ 32 : Nat) : Int)
  else ((x % 2 ^ 32 : Nat) : Int) - 2 ^ 32

/-- Source `(int32)a - (int32)b` with 32-bit wraparound, as in `handleSyncTime`. -/
def sub32 (a b : Nat) : Int := toInt32 (elapsed a b)

/-- Little-endian `uint32` read of the first four payload bytes. -/
def readU32 (p : List Nat) : Nat :=
  p.getD 0 0 % 256 + 256 * (p.getD 1 0 % 256) + 65536 * (p.getD 2 0 % 256)
    + 16777216 * (p.getD 3 0 % 256)

/-- Source `findPeer`: linear scan for the registry record whose MAC equals
`mac` (`memcmp` over the 6 bytes), returning its index; `none` models the
source's `-1`. -/
def findPeer : List SyncPeer → Mac → Option Nat
  | [], _ => none
  | p :: rest, mac =>
    if p.mac == mac then some 0 else (findPeer rest mac).map (· + 1)

/-- Source `addPeerSlot`: return the index of an existing record for `mac`, or
append a zeroed slot holding `mac` when capacity allows; `none` models the
source's `-1` on a full registry.  Slots past `_peerCount` are zeroed in
the source, hence the `default` fields of a fresh slot. -/
def addPeerSlot (peers : List SyncPeer) (mac : Mac) : Option Nat × List SyncPeer :=
  match findPeer peers mac with
  | some i => (some i, peers)
  | none =>
    if peers.length ≥ MAX_SYNC_PEERS then (none, peers)
    else (some peers.length, peers ++ [{ (default : SyncPeer) with mac := mac }])

/-- Source `sizeof(PairPayload)` = 6 + 24 + 1 bytes (packed). -/
def pairPayloadSize : Nat := 31

/-- Source `req->name`: the `char name[24]` field at offset 6 of a `PairPayload`. -/
def parsePairName (p : List Nat) : List Nat := cstr ((p.drop 6).take 24)

/-- Source `resp->accepted`: byte at offset 30 of a `PairPayload`. -/
def parsePairAccepted (p : List Nat) : Nat := p.getD 30 0

/-- Source `handlePairRequest`: length check, auto-pair gate, transport
registration, slot allocation, record promotion to PAIRED, and the
`PairResponse{accepted=1}` reply (sent on every accepted request). -/
def handlePairRequest (s : SyncState) (now : Nat) (mac : Mac)
    (payload : List Nat) : HResult :=
  if payload.length < pairPayloadSize then noop s
  else if ¬ s.autoPairEnabled then noop s
  else
    match addPeerSlot s.peers mac with
    | (none, _) => ⟨s, [], [], [TransportOp.add mac]⟩
    | (some idx, peers1) =>
      let p := peers1.getD idx default
      let p1 := { p with name := parsePairName payload,
                         state := PeerState.PAIRED,
                         lastSeen := now, online := true }
      let resp := MsgOut.pairResponse s.localMac (s.localName.take 23) 1
      ⟨{ s with peers := peers1.set idx p1, seq := (s.seq + 1) % 256 },
       [⟨mac, resp⟩], [Event.onPeerUpdate p1], [TransportOp.add mac]⟩

/-- Source `handlePairResponse`: length check, `accepted` gate, transport
registration, slot allocation and record promotion to PAIRED. -/
def handlePairResponse (s : SyncState) (now : Nat) (mac : Mac)
    (payload : List Nat) : HResult :=
  if payload.length < pairPayloadSize then noop s
  else if parsePairAccepted payload = 0 then noop s
  else
    match addPeerSlot s.peers mac with
    | (none, _) => ⟨s, [], [], [TransportOp.add mac]⟩
    | (some idx, peers1) =>
      let p := peers1.getD idx default
      let p1 := { p with name := parsePairName payload,
                         state := PeerState.PAIRED,
                         lastSeen := now, online := true }
      ⟨{ s with peers := peers1.set idx p1 },
       [], [Event.onPeerUpdate p1], [TransportOp.add mac]⟩

/-- Source `handleUnpair`: delete the sender's record (shift-down loop =
`eraseIdx`) and deregister it from the transport. -/
def handleUnpair (s : SyncState) (mac : Mac) : HResult :=
  match findPeer s.peers mac with
  | none => noop s
  | some idx =>
    ⟨{ s with peers := s.peers.eraseIdx idx }, [], [], [TransportOp.del mac]⟩

/-- Source `handleSetMode`: requires a known PAIRED sender and
`len ≥ sizeof(ModePayload) = 2`; mirrors mode/index into the record and
invokes `onModeChange`. -/
def handleSetMode (s : SyncState) (mac : Mac) (payload : List Nat) : HResult :=
  match findPeer s.peers mac with
  | none => noop s
  | some idx =>
    let p := s.peers.getD idx default
    if p.state ≠ PeerState.PAIRED then noop s
    else if payload.length < 2 then noop s
    else
      let p1 := { p with currentMode := payload.getD 0 0,
                         currentIndex := payload.getD 1 0 }
      ⟨{ s with peers := s.peers.set idx p1 }, [],
       [Event.onModeChange (payload.getD 0 0) (payload.getD 1 0)], []⟩

/-- Source `handleSetPattern`: requires a known PAIRED sender and
`len ≥ sizeof(PatternPayload) = 9`; invokes `onPattern` (no registry
field mirrors pattern data). -/
def handleSetPattern (s : SyncState) (mac : Mac) (payload : List Nat) : HResult :=
  match findPeer s.peers mac with
  | none => noop s
  | some idx =>
    let p := s.peers.getD idx default
    if p.state ≠ PeerState.PAIRED then noop s
    else if payload.length < 9 then noop s
    else
      ⟨s, [],
       [Event.onPattern (payload.getD 0 0) (payload.getD 1 0) (payload.getD 2 0)
          (payload.getD 3 0) (payload.getD 4 0) (payload.getD 5 0)
          (payload.getD 6 0) (payload.getD 7 0) (payload.getD 8 0)], []⟩

/-- Source `handleSetBrightness`: requires a known PAIRED sender and
`len ≥ sizeof(BrightnessPayload) = 1`; mirrors brightness into the record
and invokes `onBrightness`. -/
def handleSetBrightness (s : SyncState) (mac : Mac) (payload : List Nat) : HResult :=
  match findPeer s.peers mac with
  | none => noop s
  | some idx =>
    let p := s.peers.getD idx default
    if p.state ≠ PeerState.PAIRED then noop s
    else if payload.length < 1 then noop s
    else
      let p1 := { p with brightness := payload.getD 0 0 }
      ⟨{ s with peers := s.peers.set idx p1 }, [],
       [Event.onBrightness (payload.getD 0 0)], []⟩

/-- Source `handleSetFrameRate`: requires a known PAIRED sender and
`len ≥ sizeof(FrameRatePayload) = 1`; invokes `onFrameRate` (no registry
field mirrors the frame delay). -/
def handleSetFrameRate (s : SyncState) (mac : Mac) (payload : List Nat) : HResult :=
  match findPeer s.peers mac with
  | none => noop s
  | some idx =>
    let p := s.peers.getD idx default
    if p.state ≠ PeerState.PAIRED then noop s
    else if payload.length < 1 then noop s
    else ⟨s, [], [Event.onFrameRate (payload.getD 0 0)], []⟩

/-- Source `sizeof(HeartbeatPayload)` = 4 + 4 + 1 + 24 bytes (packed). -/
def heartbeatPayloadSize : Nat := 33

/-- Source `handleHeartbeat`: length check; for a known sender refresh
`lastSeen`, set `online`, mirror mode/index/brightness and name, and fire
`onPeerUpdate` when the peer transitions back online.  Unknown senders
are ignored (no auto-pair from heartbeats). -/
def handleHeartbeat (s : SyncState) (now : Nat) (mac : Mac)
    (payload : List Nat) : HResult :=
  if payload.length < heartbeatPayloadSize then noop s
  else
    match findPeer s.peers mac with
    | none => noop s
    | some idx =>
      let p := s.peers.getD idx default
      let p1 := { p with lastSeen := now, online := true,
                         currentMode := payload.getD 0 0,
                         currentIndex := payload.getD 1 0,
                         brightness := payload.getD 2 0,
                         name := cstr ((payload.drop 9).take 24) }
      ⟨{ s with peers := s.peers.set idx p1 }, [],
       if ¬ p.online then [Event.onPeerUpdate p1] else [], []⟩

/-- Source `handleSyncTime`: requires a known PAIRED sender and
`len ≥ sizeof(SyncTimePayload) = 4`; stores
`(int32)masterMillis - (int32)millis()` and invokes `onSyncTime`. -/
def handleSyncTime (s : SyncState) (now : Nat) (mac : Mac)
    (payload : List Nat) : HResult :=
  match findPeer s.peers mac with
  | none => noop s
  | some idx =>
    let p := s.peers.getD idx default
    if p.state ≠ PeerState.PAIRED then noop s
    else if payload.length < 4 then noop s
    else
      let off := sub32 (readU32 payload) now
      ⟨{ s with timeOffset := off }, [], [Event.onSyncTime off], []⟩

/-- Source `handleMessage`: the single inbound entry point.  Drops buffers
shorter than 4 bytes or with bad magic, suppresses loop-back from the
local MAC, then dispatches on the message-type byte; unknown types are
dropped. -/
def handleMessage (s : SyncState) (now : Nat) (mac : Mac)
    (data : List Nat) : HResult :=
  if data.length < 4 then noop s
  else if data.getD 0 0 ≠ 0x4E ∨ data.getD 1 0 ≠ 0x50 then noop s
  else if mac == s.localMac then noop s
  else
    let payload := data.drop 4
    match data.getD 2 0 with
    | 0x01 => handlePairRequest s now mac payload
    | 0x02 => handlePairResponse s now mac payload
    | 0x03 => handleUnpair s mac
    | 0x10 => handleSetMode s mac payload
    | 0x11 => handleSetPattern s mac payload
    | 0x12 => handleSetBrightness s mac payload
    | 0x13 => handleSetFrameRate s mac payload
    | 0x20 => handleHeartbeat s now mac payload
    | 0x30 => handleSyncTime s now mac payload
    | _ => noop s

/-- Source `hasPairedPeer`: some record is PAIRED and online. -/
def hasPairedPeer (s : SyncState) : Bool :=
  s.peers.any (fun p => p.state == PeerState.PAIRED && p.online)

/-- The per-record online recomputation of `checkPeerTimeouts`: a PAIRED
record's `online` becomes `now - lastSeen < 10000`, with `onPeerUpdate`
fired on a true→false transition; other records are untouched here. -/
def sweepOnline (now : Nat) (p : SyncPeer) : SyncPeer × List Event :=
  if p.state = PeerState.PAIRED then
    let p1 := { p with online := decide (elapsed now p.lastSeen < 10000) }
    (p1, if p.online = true ∧ p1.online = false then [Event.onPeerUpdate p1] else [])
  else (p, [])

/-- The stale-discovery deletion test of `checkPeerTimeouts`: a record in
state PAIR_SENT with `now - lastSeen > 30000` is removed. -/
def sweepDead (now : Nat) (p : SyncPeer) : Bool :=
  p.state == PeerState.PAIR_SENT && decide (elapsed now p.lastSeen > 30000)

/-- The body of `checkPeerTimeouts` as a recursion over the registry list:
the in-place loop with shift-down deletion and index rollback visits each
original record exactly once, in order. -/
def sweepList (now : Nat) : List SyncPeer → List SyncPeer × List Event × List TransportOp
  | [] => ([], [], [])
  | p :: rest =>
    let p1 := (sweepOnline now p).1
    let evs := (sweepOnline now p).2
    let r := sweepList now rest
    if sweepDead now p1 then (r.1, evs ++ r.2.1, TransportOp.del p1.mac :: r.2.2)
    else (p1 :: r.1, evs ++ r.2.1, r.2.2)

/-- Source `checkPeerTimeouts`: the periodic liveness sweep over the registry. -/
def checkPeerTimeouts (s : SyncState) (now : Nat) :
    SyncState × List Event × List TransportOp :=
  let r := sweepList now s.peers
  ({ s with peers := r.1 }, r.2.1, r.2.2)

/-- Source `broadcastToPeers`: one `sendMessage` to every record that is PAIRED
and online (each send ticks `_seq`). -/
def broadcastToPeers (s : SyncState) (m : MsgOut) : SyncState × List Send :=
  let targets := s.peers.filter (fun p => p.state == PeerState.PAIRED && p.online)
  ({ s with seq := (s.seq + targets.length) % 256 },
   targets.map (fun p => ⟨p.mac, m⟩))

/-- Source `broadcastModeChange`: gated on MIRROR mode and an online paired peer. -/
def broadcastModeChange (s : SyncState) (mode idx : Nat) : SyncState × List Send :=
  if s.syncMode ≠ SyncMode.MIRROR ∨ ¬ hasPairedPeer s then (s, [])
  else broadcastToPeers s (MsgOut.setMode mode idx)

/-- Source `broadcastPattern`: gated on MIRROR mode and an online paired peer. -/
def broadcastPattern (s : SyncState)
    (idx ty r1 g1 b1 r2 g2 b2 speed : Nat) : SyncState × List Send :=
  if s.syncMode ≠ SyncMode.MIRROR ∨ ¬ hasPairedPeer s then (s, [])
  else broadcastToPeers s (MsgOut.setPattern idx ty r1 g1 b1 r2 g2 b2 speed)

/-- Source `broadcastBrightness`: gated on MIRROR mode and an online paired peer. -/
def broadcastBrightness (s : SyncState) (brightness : Nat) : SyncState × List Send :=
  if s.syncMode ≠ SyncMode.MIRROR ∨ ¬ hasPairedPeer s then (s, [])
  else broadcastToPeers s (MsgOut.setBrightness brightness)

/-- Source `broadcastFrameRate`: gated on MIRROR mode and an online paired peer. -/
def broadcastFrameRate (s : SyncState) (frameDelay : Nat) : SyncState × List Send :=
  if s.syncMode ≠ SyncMode.MIRROR ∨ ¬ hasPairedPeer s then (s, [])
  else broadcastToPeers s (MsgOut.setFrameRate frameDelay)

/-- Source `sendPeerModeChange`: targeted send, requiring only a valid index and
PAIRED state (not `online`). -/
def sendPeerModeChange (s : SyncState) (peerIndex : Int) (mode idx : Nat) :
    SyncState × List Send :=
  if peerIndex < 0 ∨ (s.peers.length : Int) ≤ peerIndex then (s, [])
  else
    let p := s.peers.getD peerIndex.toNat default
    if p.state ≠ PeerState.PAIRED then (s, [])
    else ({ s with seq := (s.seq + 1) % 256 }, [⟨p.mac, MsgOut.setMode mode idx⟩])

/-- Source `sendPeerPattern`: targeted send, requiring only a valid index and
PAIRED state (not `online`). -/
def sendPeerPattern (s : SyncState) (peerIndex : Int)
    (idx ty r1 g1 b1 r2 g2 b2 speed : Nat) : SyncState × List Send :=
  if peerIndex < 0 ∨ (s.peers.length : Int) ≤ peerIndex then (s, [])
  else
    let p := s.peers.getD peerIndex.toNat default
    if p.state ≠ PeerState.PAIRED then (s, [])
    else ({ s with seq := (s.seq + 1) % 256 },
          [⟨p.mac, MsgOut.setPattern idx ty r1 g1 b1 r2 g2 b2 speed⟩])

/-- Source `sendPeerBrightness`: targeted send, requiring only a valid index and
PAIRED state (not `online`). -/
def sendPeerBrightness (s : SyncState) (peerIndex : Int) (brightness : Nat) :
    SyncState × List Send :=
  if peerIndex < 0 ∨ (s.peers.length : Int) ≤ peerIndex then (s, [])
  else
    let p := s.peers.getD peerIndex.toNat default
    if p.state ≠ PeerState.PAIRED then (s, [])
    else ({ s with seq := (s.seq + 1) % 256 },
          [⟨p.mac, MsgOut.setBrightness brightness⟩])

/-- Source `sendPeerFrameRate`: targeted send, requiring only a valid index and
PAIRED state (not `online`). -/
def sendPeerFrameRate (s : SyncState) (peerIndex : Int) (frameDelay : Nat) :
    SyncState × List Send :=
  if peerIndex < 0 ∨ (s.peers.length : Int) ≤ peerIndex then (s, [])
  else
    let p := s.peers.getD peerIndex.toNat default
    if p.state ≠ PeerState.PAIRED then (s, [])
    else ({ s with seq := (s.seq + 1) % 256 },
          [⟨p.mac, MsgOut.setFrameRate frameDelay⟩])

/-- The ESP-NOW broadcast address FF:FF:FF:FF:FF:FF. -/
def broadcastMac : Mac := [255, 255, 255, 255, 255, 255]

/-- Source `startPairing`: broadcast one `PairRequest`. -/
def startPairing (s : SyncState) : SyncState × List Send :=
  ({ s with seq := (s.seq + 1) % 256 },
   [⟨broadcastMac, MsgOut.pairRequest s.localMac (s.localName.take 23) 0⟩])

/-- Source `unpairPeer`: bounds check, then notify/deregister a PAIRED peer and
delete the record (the shift-down deletion runs for any state). -/
def unpairPeer (s : SyncState) (index : Int) :
    SyncState × List Send × List TransportOp :=
  if index < 0 ∨ (s.peers.length : Int) ≤ index then (s, [], [])
  else
    let p := s.peers.getD index.toNat default
    if p.state = PeerState.PAIRED then
      ({ s with peers := s.peers.eraseIdx index.toNat, seq := (s.seq + 1) % 256 },
       [⟨p.mac, MsgOut.unpair⟩], [TransportOp.del p.mac])
    else ({ s with peers := s.peers.eraseIdx index.toNat }, [], [])

/-- Source `unpairAll`: notify/deregister every PAIRED peer, then clear the
registry. -/
def unpairAll (s : SyncState) : SyncState × List Send × List TransportOp :=
  let targets := s.peers.filter (fun p => p.state == PeerState.PAIRED)
  ({ s with peers := [], seq := (s.seq + targets.length) % 256 },
   targets.map (fun p => ⟨p.mac, MsgOut.unpair⟩),
   targets.map (fun p => TransportOp.del p.mac))

/-- Source `sendHeartbeat`: broadcast the local state snapshot. -/
def sendHeartbeat (s : SyncState) (now : Nat) : SyncState × List Send :=
  ({ s with seq := (s.seq + 1) % 256 },
   [⟨broadcastMac, MsgOut.heartbeat s.localMode s.localIndex s.localBrightness
       s.localFrameDelay now (if s.syncMode = SyncMode.MIRROR then 0 else 1)
       (s.localName.take 23)⟩])

/-- Source `sendTimeSync`: broadcast the local clock to PAIRED+online peers. -/
def sendTimeSync (s : SyncState) (now : Nat) : SyncState × List Send :=
  broadcastToPeers s (MsgOut.syncTime now)

/-- Source `setSyncMode`. -/
def setSyncMode (s : SyncState) (m : SyncMode) : SyncState := { s with syncMode := m }

/-- Source `setAutoPair`. -/
def setAutoPair (s : SyncState) (b : Bool) : SyncState := { s with autoPairEnabled := b }

/-- Source `setLocalName` (strncpy into `char[32]`). -/
def setLocalName (s : SyncState) (name : List Nat) : SyncState :=
  { s with localName := (cstr name).take 31 }

/-- Source `setLocalState`. -/
def setLocalState (s : SyncState) (mode idx brightness frameDelay : Nat) : SyncState :=
  { s with localMode := mode, localIndex := idx,
           localBrightness := brightness, localFrameDelay := frameDelay }

/-- Source `getTimeOffset`. -/
def getTimeOffset (s : SyncState) : Int := s.timeOffset

/-- A run of retransmissions of one identical `PairRequest` datagram from
the same sender, one handler invocation per element of `times`
(the receipt clocks); collects the new state and all replies sent. -/
def iterPairRequests (s : SyncState) (mac : Mac) (payload : List Nat) :
    List Nat → SyncState × List Send
  | [] => (s, [])
  | t :: ts =>
    let r := handlePairRequest s t mac payload
    let r2 := iterPairRequests r.st mac payload ts
    (r2.1, r.sends ++ r2.2)

/-- A run of liveness sweeps at the given clock values, with no messages
received in between; collects the final state and all callback
invocations. -/
def runSweeps (s : SyncState) : List Nat → SyncState × List Event
  | [] => (s, [])
  | t :: ts =>
    let r := checkPeerTimeouts s t
    let r2 := runSweeps r.1 ts
    (r2.1, r.2.1 ++ r2.2)

/-- A fresh device state right after `begin` (empty registry, MIRROR
mode, auto-pair on), used in concrete instances. -/
def exInit : SyncState :=
  { peers := [], syncMode := SyncMode.MIRROR, seq := 0,
    localMac := [0xAA, 0xAA, 0xAA, 0xAA, 0xAA, 0xAA],
    localName := [80, 111, 105, 65],
    timeOffset := 0, autoPairEnabled := true,
    localMode := 0, localIndex := 0, localBrightness := 128,
    localFrameDelay := 20 }

/-- MAC of the remote peer in concrete instances. -/
def exMacB : Mac := [0xBB, 0xBB, 0xBB, 0xBB, 0xBB, 0xBB]

/-- A PAIRED, online registry record for the remote peer. -/
def exPeerB : SyncPeer :=
  { mac := exMacB, name := [80, 111, 105, 66], state := PeerState.PAIRED,
    lastSeen := 0, currentMode := 0, currentIndex := 0, brightness := 128,
    online := true }

/-- State with the remote peer paired and online. -/
def exPaired : SyncState := { exInit with peers := [exPeerB] }

/-- A stale DISCOVERING record (for the sweep instances). -/
def exDisc : SyncPeer :=
  { exPeerB with state := PeerState.DISCOVERING, online := false }

/-- A 31-byte `PairPayload` as sent by the remote peer. -/
def exPairPayload : List Nat :=
  exMacB ++ [80, 111, 105, 66] ++ List.replicate 20 0 ++ [0]

/-- A `SyncTimePayload` carrying 50000 (0x0000C350, little-endian). -/
def exSyncPayload : List Nat := [0x50, 0xC3, 0, 0]

/-- Progress order of `PeerState` (NONE < DISCOVERING < PAIR_SENT <
PAIRED), used to state that a record's state never regresses. -/
def rank : PeerState → Nat
  | PeerState.NONE => 0
  | PeerState.DISCOVERING => 1
  | PeerState.PAIR_SENT => 2
  | PeerState.PAIRED => 3

/-- The registry invariant of the spec: at most `MAX_SYNC_PEERS` records
and no duplicate endpoint (MAC). -/
def RegistryInv (ps : List SyncPeer) : Prop :=
  ps.length ≤ MAX_SYNC_PEERS ∧ (ps.map SyncPeer.mac).Nodup

/-- No state regression: every record of the new registry is at least as
far along as any record of the old registry with the same MAC. -/
def NoRegress (old new : List SyncPeer) : Prop :=
  ∀ q ∈ new, ∀ p ∈ old, p.mac = q.mac → rank p.state ≤ rank q.state

/-- Every registry record is in state PAIRED. -/
def AllPaired (ps : List SyncPeer) : Prop :=
  ∀ p ∈ ps, p.state = PeerState.PAIRED

/-- The registry transformations performed by the operations of the core:
unchanged; delete one record; overwrite one record in place keeping its
MAC and either keeping its state or promoting it to PAIRED; append a
fresh PAIRED record for an unknown MAC when capacity allows; the liveness
sweep; or clearing the registry. -/
def PeersStep (old new : List SyncPeer) : Prop :=
  new = old
  ∨ (∃ i, new = old.eraseIdx i)
  ∨ (∃ i p1, i < old.length ∧ p1.mac = (old.getD i default).mac
      ∧ (p1.state = (old.getD i default).state ∨ p1.state = PeerState.PAIRED)
      ∧ new = old.set i p1)
  ∨ (∃ p1, p1.state = PeerState.PAIRED ∧ (∀ q ∈ old, q.mac ≠ p1.mac)
      ∧ old.length < MAX_SYNC_PEERS ∧ new = old ++ [p1])
  ∨ (∃ n, new = (old.map (fun p => (sweepOnline n p).1)).filter
      (fun p => !(sweepDead n p)))
  ∨ new = []

/-- Number of registry records carrying a given MAC. -/
def macCount (ps : List SyncPeer) (mac : Mac) : Nat :=
  (ps.map SyncPeer.mac).count mac

theorem findPeer_none_iff (ps : List SyncPeer) (mac : Mac) :
    findPeer ps mac = none ↔ ∀ p ∈ ps, p.mac ≠ mac := by
  induction ps with
  | nil => simp [findPeer]
  | cons p rest ih =>
    by_cases h : p.mac = mac
    · simp [findPeer, h]
    · simp [findPeer, h, ih]

theorem findPeer_some (ps : List SyncPeer) (mac : Mac) (i : Nat)
    (h : findPeer ps mac = some i) :
    i < ps.length ∧ (ps.getD i default).mac = mac := by
  induction ps generalizing i with
  | nil => simp [findPeer] at h
  | cons p rest ih =>
    by_cases hp : p.mac = mac
    · simp [findPeer, hp] at h
      subst h
      simpa using hp
    · simp [findPeer, hp] at h
      obtain ⟨j, hj, rfl⟩ := h
      obtain ⟨h1, h2⟩ := ih j hj
      exact ⟨by simpa using h1, by simpa using h2⟩

theorem findPeer_congr (ps qs : List SyncPeer) (mac : Mac)
    (h : ps.map SyncPeer.mac = qs.map SyncPeer.mac) :
    findPeer ps mac = findPeer qs mac := by
  induction ps generalizing qs with
  | nil =>
    cases qs with
    | nil => rfl
    | cons q qs => simp at h
  | cons p rest ih =>
    cases qs with
    | nil => simp at h
    | cons q qs =>
      simp only [List.map_cons, List.cons.injEq] at h
      obtain ⟨h1, h2⟩ := h
      simp [findPeer, h1, ih qs h2]

theorem set_getD_self {α : Type} (l : List α) (n : Nat) (d : α)
    (h : n < l.length) : l.set n (l.getD n d) = l := by
  induction l generalizing n with
  | nil => simp at h
  | cons a l ih =>
    cases n with
    | zero => rfl
    | succ n => simpa using ih n (by simpa using h)

theorem elapsed_eq (t L : Nat) (h1 : L ≤ t) (h2 : t - L < 2 ^ 32) :
    elapsed t L = t - L := by
  show (t % 4294967296 + 4294967296 - L % 4294967296) % 4294967296 = t - L
  omega

/-- C8: an inbound buffer shorter than 4 bytes, or whose first two bytes
differ from the magic 0x4E 0x50, produces no state change, no send, no
callback invocation and no transport operation. -/
theorem handleMessage_drops_malformed (s : SyncState) (now : Nat) (mac : Mac)
    (data : List Nat)
    (h : data.length < 4 ∨ data.getD 0 0 ≠ 0x4E ∨ data.getD 1 0 ≠ 0x50) :
    handleMessage s now mac data = noop s := by
  unfold handleMessage
  rcases Nat.lt_or_ge data.length 4 with h4 | h4
  · rw [if_pos h4]
  · have hm : data.getD 0 0 ≠ 0x4E ∨ data.getD 1 0 ≠ 0x50 := by
      rcases h with h | h | h
      · omega
      · exact Or.inl h
      · exact Or.inr h
    rw [if_neg (by omega), if_pos hm]

/-- Witness for C8 at a concrete 3-byte buffer. -/
theorem handleMessage_drops_malformed_witness :
    handleMessage exPaired 0 exMacB [1, 2, 3] = noop exPaired :=
  handleMessage_drops_malformed _ _ _ _ (Or.inl (by decide))

/-- C5: `handleSyncTime` overwrites the stored offset with
`remoteClock - localClockNow` in signed 32-bit arithmetic and fires
`onSyncTime`, if and only if the sender is a known PAIRED peer and the
payload is at least 4 bytes; and concretely, receiving
`SyncTime{senderClockMs=50000}` at local clock 49000 makes
`getTimeOffset()` return 1000. -/
theorem handleSyncTime_spec (s : SyncState) (now : Nat) (mac : Mac)
    (payload : List Nat) :
    ((findPeer s.peers mac = none
        ∨ (∃ i, findPeer s.peers mac = some i
             ∧ (s.peers.getD i default).state ≠ PeerState.PAIRED)
        ∨ payload.length < 4) →
      handleSyncTime s now mac payload = noop s)
    ∧ (∀ i, findPeer s.peers mac = some i →
        (s.peers.getD i default).state = PeerState.PAIRED →
        4 ≤ payload.length →
        handleSyncTime s now mac payload =
          ⟨{ s with timeOffset := sub32 (readU32 payload) now }, [],
           [Event.onSyncTime (sub32 (readU32 payload) now)], []⟩)
    ∧ getTimeOffset (handleSyncTime exPaired 49000 exMacB exSyncPayload).st = 1000 := by
  refine ⟨?_, ?_, by decide⟩
  · intro h
    unfold handleSyncTime
    cases hf : findPeer s.peers mac with
    | none => rfl
    | some i =>
      dsimp only
      have hcond : (s.peers.getD i default).state ≠ PeerState.PAIRED
          ∨ payload.length < 4 := by
        rcases h with h | ⟨j, hj, hst⟩ | h
        · rw [h] at hf; cases hf
        · rw [hf] at hj
          injection hj with hj
          exact Or.inl (hj ▸ hst)
        · exact Or.inr h
      rcases hcond with hc | hc
      · rw [if_pos hc]
      · by_cases hst : (s.peers.getD i default).state = PeerState.PAIRED
        · rw [if_neg (not_not_intro hst)]
          rw [if_pos hc]
        · rw [if_pos hst]
  · intro i hf hst hlen
    unfold handleSyncTime
    rw [hf]
    dsimp only
    rw [if_neg (not_not_intro hst)]
    rw [if_neg (show ¬payload.length < 4 from by omega)]

/-- Witness for C5: the concrete SyncTime receipt from the spec example. -/
theorem handleSyncTime_spec_witness :
    handleSyncTime exPaired 49000 exMacB exSyncPayload =
      ⟨{ exPaired with timeOffset := 1000 }, [],
       [Event.onSyncTime 1000], []⟩ := by
  have h := (handleSyncTime_spec exPaired 49000 exMacB exSyncPayload).2.1 0
    (by decide) (by decide) (by decide)
  rw [h]
  decide

theorem hasPairedPeer_false_iff (s : SyncState) :
    hasPairedPeer s = false ↔
      s.peers.filter (fun p => p.state == PeerState.PAIRED && p.online) = [] := by
  unfold hasPairedPeer
  rw [List.filter_eq_nil_iff]
  simp

/-- C3: `broadcastBrightness(x)` sends nothing when the mode is
INDEPENDENT or no record is both PAIRED and online, and otherwise sends
exactly one `SetBrightness{x}` to each PAIRED-and-online record and
nothing to any other record. -/
theorem broadcastBrightness_spec (s : SyncState) (x : Nat) :
    (broadcastBrightness s x).2 =
      if s.syncMode = SyncMode.INDEPENDENT
          ∨ s.peers.filter (fun p => p.state == PeerState.PAIRED && p.online) = []
      then []
      else (s.peers.filter (fun p => p.state == PeerState.PAIRED && p.online)).map
        (fun p => ⟨p.mac, MsgOut.setBrightness x⟩) := by
  unfold broadcastBrightness
  cases hm : s.syncMode with
  | INDEPENDENT =>
    rw [if_pos (Or.inl (by simp [hm])), if_pos (Or.inl rfl)]
  | MIRROR =>
    cases hp : hasPairedPeer s with
    | false =>
      rw [if_pos (Or.inr (by simp [hp])),
        if_pos (Or.inr ((hasPairedPeer_false_iff s).mp hp))]
    | true =>
      rw [if_neg (by simp [hp]),
        if_neg (by
          rintro (h | h)
          · cases h
          · rw [← hasPairedPeer_false_iff] at h
            rw [hp] at h; cases h)]
      rfl

/-- C6: each targeted send (`sendPeerModeChange` / `sendPeerPattern` /
`sendPeerBrightness` / `sendPeerFrameRate`) is a no-op (no send, no state
change) when the index is out of range or the indexed record is not
PAIRED; when it is PAIRED the one message is sent regardless of the
record's `online` flag. -/
theorem sendPeerTargeted_spec (s : SyncState) (i : Int)
    (mode idx ty r1 g1 b1 r2 g2 b2 speed brightness frameDelay : Nat) :
    (sendPeerModeChange s i mode idx =
      if 0 ≤ i ∧ i < (s.peers.length : Int)
          ∧ (s.peers.getD i.toNat default).state = PeerState.PAIRED
      then ({ s with seq := (s.seq + 1) % 256 },
            [⟨(s.peers.getD i.toNat default).mac, MsgOut.setMode mode idx⟩])
      else (s, []))
    ∧ (sendPeerPattern s i idx ty r1 g1 b1 r2 g2 b2 speed =
      if 0 ≤ i ∧ i < (s.peers.length : Int)
          ∧ (s.peers.getD i.toNat default).state = PeerState.PAIRED
      then ({ s with seq := (s.seq + 1) % 256 },
            [⟨(s.peers.getD i.toNat default).mac,
              MsgOut.setPattern idx ty r1 g1 b1 r2 g2 b2 speed⟩])
      else (s, []))
    ∧ (sendPeerBrightness s i brightness =
      if 0 ≤ i ∧ i < (s.peers.length : Int)
          ∧ (s.peers.getD i.toNat default).state = PeerState.PAIRED
      then ({ s with seq := (s.seq + 1) % 256 },
            [⟨(s.peers.getD i.toNat default).mac, MsgOut.setBrightness brightness⟩])
      else (s, []))
    ∧ (sendPeerFrameRate s i frameDelay =
      if 0 ≤ i ∧ i < (s.peers.length : Int)
          ∧ (s.peers.getD i.toNat default).state = PeerState.PAIRED
      then ({ s with seq := (s.seq + 1) % 256 },
            [⟨(s.peers.getD i.toNat default).mac, MsgOut.setFrameRate frameDelay⟩])
      else (s, []))
    := by
  refine ⟨?_, ?_, ?_, ?_⟩
  · unfold sendPeerModeChange
    rcases Decidable.em (i < 0 ∨ (s.peers.length : Int) ≤ i) with hr | hr
    · rw [if_pos hr, if_neg (by rintro ⟨h1, h2, _⟩; rcases hr with hr | hr <;> omega)]
    · rw [if_neg hr]
      dsimp only
      by_cases hst : (s.peers.getD i.toNat default).state = PeerState.PAIRED
      · rw [if_neg (not_not_intro hst), if_pos ⟨by omega, by omega, hst⟩]
      · rw [if_pos hst, if_neg (by rintro ⟨_, _, h3⟩; exact hst h3)]
  · unfold sendPeerPattern
    rcases Decidable.em (i < 0 ∨ (s.peers.length : Int) ≤ i) with hr | hr
    · rw [if_pos hr, if_neg (by rintro ⟨h1, h2, _⟩; rcases hr with hr | hr <;> omega)]
    · rw [if_neg hr]
      dsimp only
      by_cases hst : (s.peers.getD i.toNat default).state = PeerState.PAIRED
      · rw [if_neg (not_not_intro hst), if_pos ⟨by omega, by omega, hst⟩]
      · rw [if_pos hst, if_neg (by rintro ⟨_, _, h3⟩; exact hst h3)]
  · unfold sendPeerBrightness
    rcases Decidable.em (i < 0 ∨ (s.peers.length : Int) ≤ i) with hr | hr
    · rw [if_pos hr, if_neg (by rintro ⟨h1, h2, _⟩; rcases hr with hr | hr <;> omega)]
    · rw [if_neg hr]
      dsimp only
      by_cases hst : (s.peers.getD i.toNat default).state = PeerState.PAIRED
      · rw [if_neg (not_not_intro hst), if_pos ⟨by omega, by omega, hst⟩]
      · rw [if_pos hst, if_neg (by rintro ⟨_, _, h3⟩; exact hst h3)]
  · unfold sendPeerFrameRate
    rcases Decidable.em (i < 0 ∨ (s.peers.length : Int) ≤ i) with hr | hr
    · rw [if_pos hr, if_neg (by rintro ⟨h1, h2, _⟩; rcases hr with hr | hr <;> omega)]
    · rw [if_neg hr]
      dsimp only
      by_cases hst : (s.peers.getD i.toNat default).state = PeerState.PAIRED
      · rw [if_neg (not_not_intro hst), if_pos ⟨by omega, by omega, hst⟩]
      · rw [if_pos hst, if_neg (by rintro ⟨_, _, h3⟩; exact hst h3)]

/-- C9: each `SetX` handler fires its callback (and, for SetMode and
SetBrightness, mirrors the values into the sender's record) if and only
if the sender is a known PAIRED peer and the payload meets that message's
minimum size; in every other case it is a silent no-op. -/
theorem handleSetX_spec (s : SyncState) (mac : Mac) (payload : List Nat) :
    (findPeer s.peers mac = none →
      handleSetMode s mac payload = noop s
      ∧ handleSetPattern s mac payload = noop s
      ∧ handleSetBrightness s mac payload = noop s
      ∧ handleSetFrameRate s mac payload = noop s)
    ∧ (∀ i, findPeer s.peers mac = some i →
        ((s.peers.getD i default).state ≠ PeerState.PAIRED →
          handleSetMode s mac payload = noop s
          ∧ handleSetPattern s mac payload = noop s
          ∧ handleSetBrightness s mac payload = noop s
          ∧ handleSetFrameRate s mac payload = noop s)
        ∧ ((s.peers.getD i default).state = PeerState.PAIRED →
          handleSetMode s mac payload =
            (if payload.length < 2 then noop s
             else ⟨{ s with peers := s.peers.set i
                                        ({ s.peers.getD i default with
                                            currentMode := payload.getD 0 0,
                                            currentIndex := payload.getD 1 0 }) }, [],
                    [Event.onModeChange (payload.getD 0 0) (payload.getD 1 0)], []⟩)
          ∧ handleSetPattern s mac payload =
            (if payload.length < 9 then noop s
             else ⟨s, [],
                    [Event.onPattern (payload.getD 0 0) (payload.getD 1 0)
                       (payload.getD 2 0) (payload.getD 3 0) (payload.getD 4 0)
                       (payload.getD 5 0) (payload.getD 6 0) (payload.getD 7 0)
                       (payload.getD 8 0)], []⟩)
          ∧ handleSetBrightness s mac payload =
            (if payload.length < 1 then noop s
             else ⟨{ s with peers := s.peers.set i
                                        ({ s.peers.getD i default with
                                            brightness := payload.getD 0 0 }) }, [],
                    [Event.onBrightness (payload.getD 0 0)], []⟩)
          ∧ handleSetFrameRate s mac payload =
            (if payload.length < 1 then noop s
             else ⟨s, [], [Event.onFrameRate (payload.getD 0 0)], []⟩))) := by
  constructor
  · intro h
    refine ⟨?_, ?_, ?_, ?_⟩
    · unfold handleSetMode; rw [h]
    · unfold handleSetPattern; rw [h]
    · unfold handleSetBrightness; rw [h]
    · unfold handleSetFrameRate; rw [h]
  · intro i hf
    constructor
    · intro hst
      refine ⟨?_, ?_, ?_, ?_⟩
      · unfold handleSetMode; rw [hf]; dsimp only; rw [if_pos hst]
      · unfold handleSetPattern; rw [hf]; dsimp only; rw [if_pos hst]
      · unfold handleSetBrightness; rw [hf]; dsimp only; rw [if_pos hst]
      · unfold handleSetFrameRate; rw [hf]; dsimp only; rw [if_pos hst]
    · intro hst
      refine ⟨?_, ?_, ?_, ?_⟩
      · unfold handleSetMode; rw [hf]; dsimp only
        rw [if_neg (not_not_intro hst)]
      · unfold handleSetPattern; rw [hf]; dsimp only
        rw [if_neg (not_not_intro hst)]
      · unfold handleSetBrightness; rw [hf]; dsimp only
        rw [if_neg (not_not_intro hst)]
      · unfold handleSetFrameRate; rw [hf]; dsimp only
        rw [if_neg (not_not_intro hst)]

/-- Witness for C9: a SetBrightness from the paired peer updates the
mirror and fires the callback; the same payload from an unknown sender is
dropped. -/
theorem handleSetX_spec_witness :
    handleSetBrightness exPaired exMacB [42] =
      ⟨{ exPaired with peers := [{ exPeerB with brightness := 42 }] }, [],
       [Event.onBrightness 42], []⟩
    ∧ handleSetBrightness exPaired [1, 2, 3, 4, 5, 6] [42] = noop exPaired := by
  constructor
  · have h := ((handleSetX_spec exPaired exMacB [42]).2 0 (by decide)).2 (by decide)
    rw [h.2.2.1]
    decide
  · have h := (handleSetX_spec exPaired [1, 2, 3, 4, 5, 6] [42]).1 (by decide)
    exact h.2.2.1

theorem sweepOnline_mac (now : Nat) (p : SyncPeer) :
    ((sweepOnline now p).1).mac = p.mac := by
  unfold sweepOnline
  split <;> rfl

theorem sweepOnline_state (now : Nat) (p : SyncPeer) :
    ((sweepOnline now p).1).state = p.state := by
  unfold sweepOnline
  split <;> rfl

theorem sweepOnline_of_not_paired (now : Nat) (p : SyncPeer)
    (h : p.state ≠ PeerState.PAIRED) : sweepOnline now p = (p, []) := by
  unfold sweepOnline
  rw [if_neg h]

theorem sweepOnline_of_paired (now : Nat) (p : SyncPeer)
    (h : p.state = PeerState.PAIRED) :
    (sweepOnline now p).1
      = { p with online := decide (elapsed now p.lastSeen < 10000) } := by
  unfold sweepOnline
  rw [if_pos h]

theorem sweepList_spec (now : Nat) (ps : List SyncPeer) :
    (sweepList now ps).1
        = (ps.map (fun p => (sweepOnline now p).1)).filter
            (fun p => !(sweepDead now p))
    ∧ (sweepList now ps).2.2
        = ((ps.map (fun p => (sweepOnline now p).1)).filter
            (fun p => sweepDead now p)).map (fun p => TransportOp.del p.mac) := by
  induction ps with
  | nil => exact ⟨rfl, rfl⟩
  | cons p rest ih =>
    obtain ⟨ih1, ih2⟩ := ih
    simp only [sweepList, List.map_cons, List.filter_cons]
    cases hd : sweepDead now (sweepOnline now p).1 with
    | false => simp [hd, ih1, ih2]
    | true => simp [hd, ih1, ih2]

/-- C2 counterexample: a registry record in the non-PAIRED state
DISCOVERING whose `lastSeen` is more than 30000 ms old is neither deleted
nor deregistered by the liveness sweep (the sweep's deletion test matches
only state PAIR_SENT). -/
theorem checkPeerTimeouts_counterexample :
    exDisc.state ≠ PeerState.PAIRED
    ∧ elapsed 40000 exDisc.lastSeen > 30000
    ∧ (checkPeerTimeouts { exInit with peers := [exDisc] } 40000).1.peers
        = [exDisc]
    ∧ (checkPeerTimeouts { exInit with peers := [exDisc] } 40000).2.2 = [] := by
  decide

/-- C2 (amended): the liveness sweep deletes (and deregisters from the
transport) exactly the records in state PAIR_SENT with
`now - lastSeen > 30000`; a PAIRED record is never deleted by the sweep
(only its `online` flag is recomputed); and a record in any other
non-PAIRED state (DISCOVERING, NONE) is never deleted by staleness. -/
theorem checkPeerTimeouts_spec (s : SyncState) (now : Nat) :
    ((checkPeerTimeouts s now).1.peers
        = (s.peers.map (fun p => (sweepOnline now p).1)).filter
            (fun p => !(sweepDead now p)))
    ∧ ((checkPeerTimeouts s now).2.2
        = ((s.peers.map (fun p => (sweepOnline now p).1)).filter
            (fun p => sweepDead now p)).map (fun p => TransportOp.del p.mac))
    ∧ (∀ p ∈ s.peers, p.state = PeerState.PAIRED →
        { p with online := decide (elapsed now p.lastSeen < 10000) }
          ∈ (checkPeerTimeouts s now).1.peers)
    ∧ (∀ p ∈ s.peers, p.state ≠ PeerState.PAIRED →
        p.state ≠ PeerState.PAIR_SENT → p ∈ (checkPeerTimeouts s now).1.peers)
    ∧ (∀ p : SyncPeer, p.state = PeerState.PAIR_SENT →
        elapsed now p.lastSeen > 30000 → p ∉ (checkPeerTimeouts s now).1.peers)
    ∧ (∀ p ∈ s.peers, p.state = PeerState.PAIR_SENT →
        elapsed now p.lastSeen > 30000 →
        TransportOp.del p.mac ∈ (checkPeerTimeouts s now).2.2) := by
  obtain ⟨h1, h2⟩ := sweepList_spec now s.peers
  have hc1 : (checkPeerTimeouts s now).1.peers = (sweepList now s.peers).1 := rfl
  have hc2 : (checkPeerTimeouts s now).2.2 = (sweepList now s.peers).2.2 := rfl
  rw [hc1, hc2, h1, h2]
  refine ⟨rfl, rfl, ?_, ?_, ?_, ?_⟩
  · intro p hp hst
    apply List.mem_filter.mpr
    constructor
    · exact List.mem_map.mpr ⟨p, hp, (sweepOnline_of_paired now p hst).symm ▸ rfl⟩
    · simp [sweepDead, sweepOnline_of_paired now p hst, hst]
  · intro p hp hst hsent
    apply List.mem_filter.mpr
    constructor
    · exact List.mem_map.mpr ⟨p, hp, by rw [sweepOnline_of_not_paired now p hst]⟩
    · simp [sweepDead, hsent]
  · intro p hsent hstale hmem
    have := (List.mem_filter.mp hmem).2
    simp [sweepDead, hsent, hstale] at this
  · intro p hp hsent hstale
    apply List.mem_map.mpr
    refine ⟨p, ?_, rfl⟩
    apply List.mem_filter.mpr
    have hnp : p.state ≠ PeerState.PAIRED := by rw [hsent]; intro h; cases h
    constructor
    · exact List.mem_map.mpr ⟨p, hp, by rw [sweepOnline_of_not_paired now p hnp]⟩
    · simp [sweepDead, hsent, hstale]

theorem rank_le_paired (st : PeerState) : rank st ≤ rank PeerState.PAIRED := by
  cases st <;> simp [rank]

theorem map_mac_set (old : List SyncPeer) (i : Nat) (p1 : SyncPeer)
    (h : i < old.length) (hm : p1.mac = (old.getD i default).mac) :
    (old.set i p1).map SyncPeer.mac = old.map SyncPeer.mac := by
  induction old generalizing i with
  | nil => simp at h
  | cons a l ih =>
    cases i with
    | zero =>
      simp only [List.getD_cons_zero] at hm
      simp [hm]
    | succ n =>
      simp only [List.getD_cons_succ] at hm
      simp only [List.set_cons_succ, List.map_cons]
      rw [ih n (by simpa using h) hm]

theorem getD_mem {α : Type} (l : List α) (n : Nat) (d : α) (h : n < l.length) :
    l.getD n d ∈ l := by
  induction l generalizing n with
  | nil => simp at h
  | cons a l ih =>
    cases n with
    | zero => simp
    | succ n =>
      simp only [List.getD_cons_succ]
      exact List.mem_cons_of_mem _ (ih n (by simpa using h))

theorem set_append_length {α : Type} (l : List α) (b x : α) :
    (l ++ [b]).set l.length x = l ++ [x] := by
  induction l with
  | nil => rfl
  | cons a l ih =>
    simp only [List.cons_append, List.length_cons, List.set_cons_succ, ih]

theorem getD_append_length {α : Type} (l : List α) (b d : α) :
    (l ++ [b]).getD l.length d = b := by
  induction l with
  | nil => rfl
  | cons a l ih => simp [ih]

theorem peersStep_inv (old new : List SyncPeer) (h : PeersStep old new)
    (hInv : RegistryInv old) : RegistryInv new ∧ NoRegress old new := by
  obtain ⟨hlen, hnd⟩ := hInv
  have hinj := List.inj_on_of_nodup_map hnd
  rcases h with rfl | ⟨i, rfl⟩ | ⟨i, p1, hi, hmac, hst, rfl⟩
    | ⟨p1, hp1, hfresh, hcap, rfl⟩ | ⟨n, rfl⟩ | rfl
  · refine ⟨⟨hlen, hnd⟩, ?_⟩
    intro q hq p hp hpq
    rw [hinj hp hq hpq]
  · have hsub : List.Sublist (old.eraseIdx i) old := List.eraseIdx_sublist old i
    refine ⟨⟨le_trans hsub.length_le hlen, hnd.sublist (hsub.map _)⟩, ?_⟩
    intro q hq p hp hpq
    rw [hinj hp (hsub.subset hq) hpq]
  · refine ⟨⟨by simpa using hlen, by rw [map_mac_set old i p1 hi hmac]; exact hnd⟩, ?_⟩
    intro q hq p hp hpq
    rcases List.mem_or_eq_of_mem_set hq with hq' | rfl
    · rw [hinj hp hq' hpq]
    · have hmem := getD_mem old i default hi
      have hpd : p = old.getD i default := hinj hp hmem (by rw [hpq, hmac])
      rw [hpd]
      rcases hst with he | he
      · exact le_of_eq (by rw [he])
      · rw [he]; exact rank_le_paired _
  · constructor
    · constructor
      · simp only [List.length_append, List.length_singleton]
        have : old.length < MAX_SYNC_PEERS := hcap
        omega
      · rw [List.map_append]
        have hfm : p1.mac ∉ old.map SyncPeer.mac := by
          intro hx
          obtain ⟨q, hq, hqm⟩ := List.mem_map.mp hx
          exact hfresh q hq hqm
        simp [List.nodup_append, hnd, hfm]
    · intro q hq p hp hpq
      rcases List.mem_append.mp hq with hq' | hq'
      · rw [hinj hp hq' hpq]
      · simp only [List.mem_singleton] at hq'
        subst hq'
        exact absurd hpq (hfresh p hp)
  · have hmap : ((old.map (fun p => (sweepOnline n p).1)).map SyncPeer.mac)
        = old.map SyncPeer.mac := by
      rw [List.map_map]
      exact List.map_congr_left (fun p _ => sweepOnline_mac n p)
    constructor
    · constructor
      · exact le_trans (List.length_filter_le _ _)
          (le_trans (le_of_eq (List.length_map _ _)) hlen)
      · have h0 : List.Sublist
            ((old.map (fun p => (sweepOnline n p).1)).filter
              (fun p => !(sweepDead n p)))
            (old.map (fun p => (sweepOnline n p).1)) := List.filter_sublist _
        have hsub := h0.map SyncPeer.mac
        rw [hmap] at hsub
        exact hnd.sublist hsub
    · intro q hq p hp hpq
      have hq2 := (List.mem_filter.mp hq).1
      obtain ⟨p0, hp0, rfl⟩ := List.mem_map.mp hq2
      have hpm : p.mac = p0.mac := by rw [hpq, sweepOnline_mac]
      rw [hinj hp hp0 hpm, sweepOnline_state]
  · exact ⟨⟨by simp [MAX_SYNC_PEERS], by simp⟩, by intro q hq; simp at hq⟩

theorem peersStep_allPaired (old new : List SyncPeer) (h : PeersStep old new)
    (hAll : AllPaired old) : AllPaired new := by
  rcases h with rfl | ⟨i, rfl⟩ | ⟨i, p1, hi, hmac, hst, rfl⟩
    | ⟨p1, hp1, _, _, rfl⟩ | ⟨n, rfl⟩ | rfl
  · exact hAll
  · intro q hq
    exact hAll q ((List.eraseIdx_sublist old i).subset hq)
  · intro q hq
    rcases List.mem_or_eq_of_mem_set hq with hq' | rfl
    · exact hAll q hq'
    · rcases hst with he | he
      · rw [he]; exact hAll _ (getD_mem old i default hi)
      · exact he
  · intro q hq
    rcases List.mem_append.mp hq with hq' | hq'
    · exact hAll q hq'
    · simp only [List.mem_singleton] at hq'
      subst hq'
      exact hp1
  · intro q hq
    have hq2 := (List.mem_filter.mp hq).1
    obtain ⟨p0, hp0, rfl⟩ := List.mem_map.mp hq2
    rw [sweepOnline_state]
    exact hAll p0 hp0
  · intro q hq
    simp at hq

theorem addPeerSlot_spec (ps : List SyncPeer) (mac : Mac) :
    (MAX_SYNC_PEERS ≤ ps.length ∧ findPeer ps mac = none
      ∧ addPeerSlot ps mac = (none, ps))
    ∨ (∃ i, findPeer ps mac = some i ∧ addPeerSlot ps mac = (some i, ps))
    ∨ (findPeer ps mac = none ∧ ps.length < MAX_SYNC_PEERS
        ∧ addPeerSlot ps mac
            = (some ps.length, ps ++ [{ (default : SyncPeer) with mac := mac }])) := by
  unfold addPeerSlot
  cases hf : findPeer ps mac with
  | some i => exact Or.inr (Or.inl ⟨i, rfl, rfl⟩)
  | none =>
    by_cases hlen : ps.length ≥ MAX_SYNC_PEERS
    · exact Or.inl ⟨hlen, rfl, by rw [if_pos hlen]⟩
    · exact Or.inr (Or.inr ⟨rfl, by omega, by rw [if_neg hlen]⟩)

theorem handlePairRequest_step (s : SyncState) (now : Nat) (mac : Mac)
    (payload : List Nat) :
    PeersStep s.peers (handlePairRequest s now mac payload).st.peers := by
  unfold handlePairRequest
  by_cases h1 : payload.length < pairPayloadSize
  · rw [if_pos h1]; exact Or.inl rfl
  rw [if_neg h1]
  by_cases h2 : ¬ s.autoPairEnabled
  · rw [if_pos h2]; exact Or.inl rfl
  rw [if_neg h2]
  rcases addPeerSlot_spec s.peers mac with ⟨_, _, hadd⟩ | ⟨i, hf, hadd⟩
    | ⟨hf, hcap, hadd⟩
  · rw [hadd]; exact Or.inl rfl
  · rw [hadd]
    dsimp only
    obtain ⟨hlt, hmac⟩ := findPeer_some s.peers mac i hf
    exact Or.inr (Or.inr (Or.inl ⟨i, ({ s.peers.getD i default with
          name := parsePairName payload, state := PeerState.PAIRED,
          lastSeen := now, online := true }),
      hlt, rfl, Or.inr rfl, rfl⟩))
  · rw [hadd]
    dsimp only
    right; right; right; left
    rw [getD_append_length, set_append_length]
    refine ⟨_, rfl, ?_, hcap, rfl⟩
    intro q hq
    exact (findPeer_none_iff s.peers mac).mp hf q hq

theorem handlePairResponse_step (s : SyncState) (now : Nat) (mac : Mac)
    (payload : List Nat) :
    PeersStep s.peers (handlePairResponse s now mac payload).st.peers := by
  unfold handlePairResponse
  by_cases h1 : payload.length < pairPayloadSize
  · rw [if_pos h1]; exact Or.inl rfl
  rw [if_neg h1]
  by_cases h2 : parsePairAccepted payload = 0
  · rw [if_pos h2]; exact Or.inl rfl
  rw [if_neg h2]
  rcases addPeerSlot_spec s.peers mac with ⟨_, _, hadd⟩ | ⟨i, hf, hadd⟩
    | ⟨hf, hcap, hadd⟩
  · rw [hadd]; exact Or.inl rfl
  · rw [hadd]
    dsimp only
    obtain ⟨hlt, hmac⟩ := findPeer_some s.peers mac i hf
    exact Or.inr (Or.inr (Or.inl ⟨i, ({ s.peers.getD i default with
          name := parsePairName payload, state := PeerState.PAIRED,
          lastSeen := now, online := true }),
      hlt, rfl, Or.inr rfl, rfl⟩))
  · rw [hadd]
    dsimp only
    right; right; right; left
    rw [getD_append_length, set_append_length]
    refine ⟨_, rfl, ?_, hcap, rfl⟩
    intro q hq
    exact (findPeer_none_iff s.peers mac).mp hf q hq

theorem handleUnpair_step (s : SyncState) (mac : Mac) :
    PeersStep s.peers (handleUnpair s mac).st.peers := by
  unfold handleUnpair
  cases hf : findPeer s.peers mac with
  | none => exact Or.inl rfl
  | some i => exact Or.inr (Or.inl ⟨i, rfl⟩)

theorem handleSetMode_step (s : SyncState) (mac : Mac) (payload : List Nat) :
    PeersStep s.peers (handleSetMode s mac payload).st.peers := by
  unfold handleSetMode
  cases hf : findPeer s.peers mac with
  | none => exact Or.inl rfl
  | some i =>
    dsimp only
    by_cases hst : (s.peers.getD i default).state ≠ PeerState.PAIRED
    · rw [if_pos hst]; exact Or.inl rfl
    rw [if_neg hst]
    by_cases hl : payload.length < 2
    · rw [if_pos hl]; exact Or.inl rfl
    rw [if_neg hl]
    obtain ⟨hlt, _⟩ := findPeer_some s.peers mac i hf
    exact Or.inr (Or.inr (Or.inl ⟨i,
      ({ s.peers.getD i default with
          currentMode := payload.getD 0 0, currentIndex := payload.getD 1 0 }),
      hlt, rfl, Or.inl rfl, rfl⟩))

theorem handleSetBrightness_step (s : SyncState) (mac : Mac) (payload : List Nat) :
    PeersStep s.peers (handleSetBrightness s mac payload).st.peers := by
  unfold handleSetBrightness
  cases hf : findPeer s.peers mac with
  | none => exact Or.inl rfl
  | some i =>
    dsimp only
    by_cases hst : (s.peers.getD i default).state ≠ PeerState.PAIRED
    · rw [if_pos hst]; exact Or.inl rfl
    rw [if_neg hst]
    by_cases hl : payload.length < 1
    · rw [if_pos hl]; exact Or.inl rfl
    rw [if_neg hl]
    obtain ⟨hlt, _⟩ := findPeer_some s.peers mac i hf
    exact Or.inr (Or.inr (Or.inl ⟨i,
      ({ s.peers.getD i default with brightness := payload.getD 0 0 }),
      hlt, rfl, Or.inl rfl, rfl⟩))

theorem handleSetPattern_peers (s : SyncState) (mac : Mac) (payload : List Nat) :
    (handleSetPattern s mac payload).st.peers = s.peers := by
  unfold handleSetPattern
  cases hf : findPeer s.peers mac with
  | none => rfl
  | some i =>
    dsimp only
    split
    · rfl
    split <;> rfl

theorem handleSetFrameRate_peers (s : SyncState) (mac : Mac) (payload : List Nat) :
    (handleSetFrameRate s mac payload).st.peers = s.peers := by
  unfold handleSetFrameRate
  cases hf : findPeer s.peers mac with
  | none => rfl
  | some i =>
    dsimp only
    split
    · rfl
    split <;> rfl

theorem handleSyncTime_peers (s : SyncState) (now : Nat) (mac : Mac)
    (payload : List Nat) :
    (handleSyncTime s now mac payload).st.peers = s.peers := by
  unfold handleSyncTime
  cases hf : findPeer s.peers mac with
  | none => rfl
  | some i =>
    dsimp only
    split
    · rfl
    split <;> rfl

theorem handleHeartbeat_step (s : SyncState) (now : Nat) (mac : Mac)
    (payload : List Nat) :
    PeersStep s.peers (handleHeartbeat s now mac payload).st.peers := by
  unfold handleHeartbeat
  by_cases hl : payload.length < heartbeatPayloadSize
  · rw [if_pos hl]; exact Or.inl rfl
  rw [if_neg hl]
  cases hf : findPeer s.peers mac with
  | none => exact Or.inl rfl
  | some i =>
    dsimp only
    obtain ⟨hlt, _⟩ := findPeer_some s.peers mac i hf
    exact Or.inr (Or.inr (Or.inl ⟨i,
      ({ s.peers.getD i default with
          lastSeen := now, online := true,
          currentMode := payload.getD 0 0, currentIndex := payload.getD 1 0,
          brightness := payload.getD 2 0,
          name := cstr ((payload.drop 9).take 24) }),
      hlt, rfl, Or.inl rfl, rfl⟩))

theorem handleMessage_step (s : SyncState) (now : Nat) (mac : Mac)
    (data : List Nat) :
    PeersStep s.peers (handleMessage s now mac data).st.peers := by
  unfold handleMessage
  by_cases h1 : data.length < 4
  · rw [if_pos h1]; exact Or.inl rfl
  rw [if_neg h1]
  by_cases h2 : data.getD 0 0 ≠ 0x4E ∨ data.getD 1 0 ≠ 0x50
  · rw [if_pos h2]; exact Or.inl rfl
  rw [if_neg h2]
  by_cases h3 : (mac == s.localMac) = true
  · rw [if_pos h3]; exact Or.inl rfl
  rw [if_neg h3]
  dsimp only
  split
  · exact handlePairRequest_step s now mac (data.drop 4)
  · exact handlePairResponse_step s now mac (data.drop 4)
  · exact handleUnpair_step s mac
  · exact handleSetMode_step s mac (data.drop 4)
  · exact handleSetPattern_peers s mac (data.drop 4) ▸ Or.inl rfl
  · exact handleSetBrightness_step s mac (data.drop 4)
  · exact handleSetFrameRate_peers s mac (data.drop 4) ▸ Or.inl rfl
  · exact handleHeartbeat_step s now mac (data.drop 4)
  · exact handleSyncTime_peers s now mac (data.drop 4) ▸ Or.inl rfl
  · exact Or.inl rfl

theorem checkPeerTimeouts_step (s : SyncState) (now : Nat) :
    PeersStep s.peers (checkPeerTimeouts s now).1.peers := by
  right; right; right; right; left
  exact ⟨now, (sweepList_spec now s.peers).1⟩

theorem unpairPeer_step (s : SyncState) (i : Int) :
    PeersStep s.peers (unpairPeer s i).1.peers := by
  unfold unpairPeer
  by_cases h1 : i < 0 ∨ (s.peers.length : Int) ≤ i
  · rw [if_pos h1]; exact Or.inl rfl
  rw [if_neg h1]
  dsimp only
  split
  · exact Or.inr (Or.inl ⟨i.toNat, rfl⟩)
  · exact Or.inr (Or.inl ⟨i.toNat, rfl⟩)

theorem unpairAll_peers (s : SyncState) : (unpairAll s).1.peers = [] := rfl

/-- C10: every registry-mutating operation of the core preserves the
property that all registry records are in state PEER_PAIRED (both
insertion paths set the record to PAIRED, and no operation assigns
DISCOVERING or PAIR_SENT); the property holds of the initial empty
registry. -/
theorem allPaired_invariant (s : SyncState) (now : Nat) (mac : Mac)
    (data : List Nat) (i : Int) (h : AllPaired s.peers) :
    AllPaired (handleMessage s now mac data).st.peers
    ∧ AllPaired (checkPeerTimeouts s now).1.peers
    ∧ AllPaired (unpairPeer s i).1.peers
    ∧ AllPaired (unpairAll s).1.peers
    ∧ AllPaired ([] : List SyncPeer) :=
  ⟨peersStep_allPaired _ _ (handleMessage_step s now mac data) h,
   peersStep_allPaired _ _ (checkPeerTimeouts_step s now) h,
   peersStep_allPaired _ _ (unpairPeer_step s i) h,
   by rw [unpairAll_peers]; intro q hq; simp at hq,
   by intro q hq; simp at hq⟩

/-- Witness for C10: a pairing request handled from the concrete paired
state leaves every registry record PAIRED. -/
theorem allPaired_invariant_witness :
    AllPaired (handleMessage exPaired 100 exMacB
      ([0x4E, 0x50, 0x01, 0] ++ exPairPayload)).st.peers :=
  (allPaired_invariant exPaired 100 exMacB
    ([0x4E, 0x50, 0x01, 0] ++ exPairPayload) 0
    (by unfold AllPaired; decide)).1

/-- C7: every operation of the core preserves the registry invariant (at
most `MAX_SYNC_PEERS` records, unique MACs) and never regresses a
record's state (a record only advances toward PAIRED or is deleted); the
send-side operations do not touch the registry at all. -/
theorem registryInv_invariant (s : SyncState) (now : Nat) (mac : Mac)
    (data : List Nat) (i : Int)
    (mode idx brightness frameDelay ty r1 g1 b1v r2 g2 b2v speed : Nat)
    (mo : SyncMode) (en : Bool) (nm : List Nat)
    (h : RegistryInv s.peers) :
    (RegistryInv (handleMessage s now mac data).st.peers
      ∧ NoRegress s.peers (handleMessage s now mac data).st.peers)
    ∧ (RegistryInv (checkPeerTimeouts s now).1.peers
      ∧ NoRegress s.peers (checkPeerTimeouts s now).1.peers)
    ∧ (RegistryInv (unpairPeer s i).1.peers
      ∧ NoRegress s.peers (unpairPeer s i).1.peers)
    ∧ (RegistryInv (unpairAll s).1.peers
      ∧ NoRegress s.peers (unpairAll s).1.peers)
    ∧ (startPairing s).1.peers = s.peers
    ∧ (broadcastModeChange s mode idx).1.peers = s.peers
    ∧ (broadcastPattern s idx ty r1 g1 b1v r2 g2 b2v speed).1.peers = s.peers
    ∧ (broadcastBrightness s brightness).1.peers = s.peers
    ∧ (broadcastFrameRate s frameDelay).1.peers = s.peers
    ∧ (sendPeerModeChange s i mode idx).1.peers = s.peers
    ∧ (sendPeerPattern s i idx ty r1 g1 b1v r2 g2 b2v speed).1.peers = s.peers
    ∧ (sendPeerBrightness s i brightness).1.peers = s.peers
    ∧ (sendPeerFrameRate s i frameDelay).1.peers = s.peers
    ∧ (sendHeartbeat s now).1.peers = s.peers
    ∧ (sendTimeSync s now).1.peers = s.peers
    ∧ (setSyncMode s mo).peers = s.peers
    ∧ (setAutoPair s en).peers = s.peers
    ∧ (setLocalName s nm).peers = s.peers
    ∧ (setLocalState s mode idx brightness frameDelay).peers = s.peers := by
  have hAll : PeersStep s.peers (unpairAll s).1.peers := by
    rw [unpairAll_peers]
    exact Or.inr (Or.inr (Or.inr (Or.inr (Or.inr rfl))))
  refine ⟨peersStep_inv _ _ (handleMessage_step s now mac data) h,
    peersStep_inv _ _ (checkPeerTimeouts_step s now) h,
    peersStep_inv _ _ (unpairPeer_step s i) h,
    peersStep_inv _ _ hAll h,
    rfl, ?_, ?_, ?_, ?_, ?_, ?_, ?_, ?_, rfl, rfl, rfl, rfl, rfl, rfl⟩
  · unfold broadcastModeChange broadcastToPeers
    split <;> rfl
  · unfold broadcastPattern broadcastToPeers
    split <;> rfl
  · unfold broadcastBrightness broadcastToPeers
    split <;> rfl
  · unfold broadcastFrameRate broadcastToPeers
    split <;> rfl
  · unfold sendPeerModeChange
    split
    · rfl
    · dsimp only
      split <;> rfl
  · unfold sendPeerPattern
    split
    · rfl
    · dsimp only
      split <;> rfl
  · unfold sendPeerBrightness
    split
    · rfl
    · dsimp only
      split <;> rfl
  · unfold sendPeerFrameRate
    split
    · rfl
    · dsimp only
      split <;> rfl

/-- Witness for C7: the invariant survives a concrete pairing request. -/
theorem registryInv_invariant_witness :
    RegistryInv (handleMessage exPaired 100 exMacB
      ([0x4E, 0x50, 0x01, 0] ++ exPairPayload)).st.peers :=
  ((registryInv_invariant exPaired 100 exMacB
      ([0x4E, 0x50, 0x01, 0] ++ exPairPayload) 0
      0 0 0 0 0 0 0 0 0 0 0 0 SyncMode.MIRROR true []
      (by unfold RegistryInv; decide)).1).1

/-- Witness for C2 (amended): the concrete paired peer, stale by 11000 ms,
stays in the registry with `online` recomputed to false. -/
theorem checkPeerTimeouts_spec_witness :
    { exPeerB with online := false } ∈ (checkPeerTimeouts exPaired 11000).1.peers := by
  have h := (checkPeerTimeouts_spec exPaired 11000).2.2.1 exPeerB (by decide) (by decide)
  have he : ({ exPeerB with online := decide (elapsed 11000 exPeerB.lastSeen < 10000) } : SyncPeer)
      = { exPeerB with online := false } := by decide
  rw [he] at h
  exact h

/-- C1 counterexample: two retransmissions of one identical PairRequest,
received with auto-pair enabled and a free registry, produce one PAIRED
record for the sender but TWO `PairResponse{accepted=1}` replies, not
exactly one. -/
theorem iterPairRequests_counterexample :
    exInit.autoPairEnabled = true
    ∧ exInit.peers = []
    ∧ macCount (iterPairRequests exInit exMacB exPairPayload [100, 200]).1.peers exMacB = 1
    ∧ (iterPairRequests exInit exMacB exPairPayload [100, 200]).2.length = 2
    ∧ (∀ r ∈ (iterPairRequests exInit exMacB exPairPayload [100, 200]).2,
        r = ⟨exMacB, MsgOut.pairResponse exInit.localMac (exInit.localName.take 23) 1⟩) := by
  refine ⟨rfl, rfl, by decide, by decide, by decide⟩

theorem macCount_zero_of_findPeer_none (ps : List SyncPeer) (mac : Mac)
    (h : findPeer ps mac = none) : macCount ps mac = 0 := by
  unfold macCount
  apply List.count_eq_zero.mpr
  intro hmem
  obtain ⟨q, hq, hqm⟩ := List.mem_map.mp hmem
  exact (findPeer_none_iff ps mac).mp h q hq hqm

theorem macCount_pos_of_findPeer_some (ps : List SyncPeer) (mac : Mac) (i : Nat)
    (h : findPeer ps mac = some i) : 1 ≤ macCount ps mac := by
  obtain ⟨hlt, hmac⟩ := findPeer_some ps mac i h
  unfold macCount
  apply List.count_pos_iff.mpr
  exact List.mem_map.mpr ⟨ps.getD i default, getD_mem ps i default hlt, hmac⟩

theorem getD_set_self {α : Type} (l : List α) (i : Nat) (x d : α)
    (h : i < l.length) : (l.set i x).getD i d = x := by
  induction l generalizing i with
  | nil => simp at h
  | cons a l ih =>
    cases i with
    | zero => rfl
    | succ n => simpa using ih n (by simpa using h)

theorem findPeer_append_of_none (ps : List SyncPeer) (mac : Mac) (p1 : SyncPeer)
    (h : findPeer ps mac = none) (hm : p1.mac = mac) :
    findPeer (ps ++ [p1]) mac = some ps.length := by
  induction ps with
  | nil => simp [findPeer, hm]
  | cons a l ih =>
    unfold findPeer at h ⊢
    by_cases ha : (a.mac == mac) = true
    · rw [if_pos ha] at h; cases h
    · rw [if_neg ha] at h
      rw [List.cons_append]
      show (if (a.mac == mac) = true then some 0
        else (findPeer (l ++ [p1]) mac).map (· + 1)) = some (a :: l).length
      rw [if_neg ha]
      rw [ih (Option.map_eq_none'.mp h)]
      rfl

theorem handlePairRequest_repeat (s : SyncState) (t : Nat) (mac : Mac)
    (payload : List Nat)
    (hap : s.autoPairEnabled = true)
    (hlen : pairPayloadSize ≤ payload.length)
    (hcap : s.peers.length < MAX_SYNC_PEERS ∨ macCount s.peers mac = 1)
    (hone : macCount s.peers mac ≤ 1) :
    macCount (handlePairRequest s t mac payload).st.peers mac = 1
    ∧ (∀ j, findPeer (handlePairRequest s t mac payload).st.peers mac = some j →
        ((handlePairRequest s t mac payload).st.peers.getD j default).state
          = PeerState.PAIRED)
    ∧ (handlePairRequest s t mac payload).sends
        = [⟨mac, MsgOut.pairResponse s.localMac (s.localName.take 23) 1⟩]
    ∧ (handlePairRequest s t mac payload).st.localMac = s.localMac
    ∧ (handlePairRequest s t mac payload).st.localName = s.localName
    ∧ (handlePairRequest s t mac payload).st.autoPairEnabled = true := by
  unfold handlePairRequest
  rw [if_neg (by omega), if_neg (by rw [hap]; simp)]
  rcases addPeerSlot_spec s.peers mac with ⟨hfull, hf, hadd⟩ | ⟨i, hf, hadd⟩
    | ⟨hf, hcap2, hadd⟩
  · exfalso
    have h0 := macCount_zero_of_findPeer_none s.peers mac hf
    rcases hcap with hc | hc
    · unfold MAX_SYNC_PEERS at hc hfull; omega
    · omega
  · rw [hadd]
    dsimp only
    obtain ⟨hlt, hmac⟩ := findPeer_some s.peers mac i hf
    have hmaps : (s.peers.set i
        ({ s.peers.getD i default with
            name := parsePairName payload, state := PeerState.PAIRED,
            lastSeen := t, online := true })).map SyncPeer.mac
        = s.peers.map SyncPeer.mac := map_mac_set s.peers i _ hlt rfl
    have hcount : macCount (s.peers.set i
        ({ s.peers.getD i default with
            name := parsePairName payload, state := PeerState.PAIRED,
            lastSeen := t, online := true })) mac = macCount s.peers mac := by
      unfold macCount
      rw [hmaps]
    have h1le := macCount_pos_of_findPeer_some s.peers mac i hf
    refine ⟨by rw [hcount]; omega, ?_, rfl, rfl, rfl, hap⟩
    intro j hj
    rw [findPeer_congr _ s.peers mac hmaps, hf] at hj
    injection hj with hj
    subst hj
    rw [getD_set_self _ _ _ _ hlt]
  · rw [hadd]
    dsimp only
    rw [getD_append_length, set_append_length]
    have h0 := macCount_zero_of_findPeer_none s.peers mac hf
    constructor
    · unfold macCount at h0 ⊢
      rw [List.map_append, List.count_append]
      simp [h0]
    constructor
    · intro j hj
      rw [findPeer_append_of_none s.peers mac _ hf rfl] at hj
      injection hj with hj
      subst hj
      rw [getD_append_length]
    · exact ⟨rfl, rfl, rfl, hap⟩

/-- C1 (amended): for any nonempty run of retransmissions of one
identical PairRequest from the same sender, received with auto-pair
enabled and free capacity (or the sender already recorded once), the
registry ends with exactly one record for that endpoint and that record
is PAIRED; however each received request — including every
retransmission — is answered with its own `PairResponse{accepted=1}`, so
k requests elicit k responses (not one in total). -/
theorem iterPairRequests_spec (s : SyncState) (mac : Mac) (payload : List Nat)
    (ts : List Nat)
    (hap : s.autoPairEnabled = true)
    (hlen : pairPayloadSize ≤ payload.length)
    (hcap : s.peers.length < MAX_SYNC_PEERS ∨ macCount s.peers mac = 1)
    (hone : macCount s.peers mac ≤ 1)
    (hts : ts ≠ []) :
    macCount (iterPairRequests s mac payload ts).1.peers mac = 1
    ∧ (∀ j, findPeer (iterPairRequests s mac payload ts).1.peers mac = some j →
        ((iterPairRequests s mac payload ts).1.peers.getD j default).state
          = PeerState.PAIRED)
    ∧ (iterPairRequests s mac payload ts).2
        = ts.map (fun _ =>
            ⟨mac, MsgOut.pairResponse s.localMac (s.localName.take 23) 1⟩) := by
  induction ts generalizing s with
  | nil => exact absurd rfl hts
  | cons t rest ih =>
    obtain ⟨h1, h2, h3, h4, h5, h6⟩ :=
      handlePairRequest_repeat s t mac payload hap hlen hcap hone
    cases rest with
    | nil =>
      simp only [iterPairRequests, List.map_cons, List.map_nil]
      exact ⟨h1, h2, by rw [h3]; rfl⟩
    | cons t2 rest2 =>
      obtain ⟨g1, g2, g3⟩ := ih (handlePairRequest s t mac payload).st h6
        (Or.inr h1) (le_of_eq h1) (by simp)
      simp only [iterPairRequests] at g1 g2 g3 ⊢
      refine ⟨g1, g2, ?_⟩
      rw [h3, g3, h4, h5]
      rfl

/-- Witness for C1 (amended): the concrete two-retransmission run — one
PAIRED record, two accepted responses. -/
theorem iterPairRequests_spec_witness :
    macCount (iterPairRequests exInit exMacB exPairPayload [100, 200]).1.peers exMacB = 1
    ∧ (iterPairRequests exInit exMacB exPairPayload [100, 200]).2
        = [⟨exMacB, MsgOut.pairResponse exInit.localMac (exInit.localName.take 23) 1⟩,
           ⟨exMacB, MsgOut.pairResponse exInit.localMac (exInit.localName.take 23) 1⟩] := by
  have h := iterPairRequests_spec exInit exMacB exPairPayload [100, 200] rfl
    (by decide) (Or.inl (by decide)) (by decide) (by decide)
  exact ⟨h.1, by rw [h.2.2]; rfl⟩

theorem setOnline_eta (q : SyncPeer) (b : Bool) (h : q.online = b) :
    ({ q with online := b } : SyncPeer) = q := by
  cases q
  simp_all

theorem checkPeerTimeouts_single_live (s : SyncState) (q : SyncPeer) (t : Nat)
    (hs : s.peers = [q]) (hq : q.state = PeerState.PAIRED)
    (hlive : elapsed t q.lastSeen < 10000) :
    checkPeerTimeouts s t
      = ({ s with peers := [{ q with online := true }] }, [], []) := by
  unfold checkPeerTimeouts
  rw [hs]
  simp only [sweepList, sweepOnline, sweepDead, hq, hlive]
  simp

theorem checkPeerTimeouts_single_stale (s : SyncState) (q : SyncPeer) (t : Nat)
    (hs : s.peers = [q]) (hq : q.state = PeerState.PAIRED)
    (hstale : ¬ elapsed t q.lastSeen < 10000) :
    checkPeerTimeouts s t
      = ({ s with peers := [{ q with online := false }] },
         (if q.online = true
          then [Event.onPeerUpdate { q with online := false }] else []),
         []) := by
  unfold checkPeerTimeouts
  rw [hs]
  simp only [sweepList, sweepOnline, sweepDead, hq, hstale]
  simp

theorem runSweeps_offline (q : SyncPeer) (hq : q.state = PeerState.PAIRED)
    (hoff : q.online = false) :
    ∀ (ts : List Nat) (s : SyncState), s.peers = [q] →
    (∀ t ∈ ts, ¬ elapsed t q.lastSeen < 10000) →
    (runSweeps s ts).1.peers = [q] ∧ (runSweeps s ts).2 = [] := by
  intro ts
  induction ts with
  | nil =>
    intro s hs _
    exact ⟨hs, rfl⟩
  | cons t rest ih =>
    intro s hs hstale
    have hst := checkPeerTimeouts_single_stale s q t hs hq (hstale t (by simp))
    simp only [runSweeps]
    rw [hst]
    dsimp only
    rw [if_neg (by rw [hoff]; simp), setOnline_eta q false hoff]
    have hrest := ih { s with peers := [q] } rfl
      (fun u hu => hstale u (List.mem_cons_of_mem _ hu))
    refine ⟨hrest.1, ?_⟩
    rw [hrest.2]
    simp

theorem runSweeps_live (q : SyncPeer) (hq : q.state = PeerState.PAIRED)
    (hon : q.online = true) :
    ∀ (ts : List Nat) (s : SyncState), s.peers = [q] →
    (∀ t ∈ ts, q.lastSeen ≤ t ∧ t - q.lastSeen < 2 ^ 32
      ∧ t - q.lastSeen < 10000) →
    runSweeps s ts = (s, []) := by
  intro ts
  induction ts with
  | nil => intro s _ _; rfl
  | cons t rest ih =>
    intro s hs hb
    obtain ⟨h1, h2, h3⟩ := hb t (by simp)
    have hel : elapsed t q.lastSeen = t - q.lastSeen := elapsed_eq _ _ h1 h2
    have hst := checkPeerTimeouts_single_live s q t hs hq (by omega)
    simp only [runSweeps]
    rw [hst]
    dsimp only
    rw [setOnline_eta q true hon]
    have hseta : ({ s with peers := [q] } : SyncState) = s := by
      rw [← hs]
    rw [hseta, ih s hs (fun u hu => hb u (List.mem_cons_of_mem _ hu))]
    simp

theorem runSweeps_append (s : SyncState) (xs ys : List Nat) :
    runSweeps s (xs ++ ys)
      = ((runSweeps (runSweeps s xs).1 ys).1,
         (runSweeps s xs).2 ++ (runSweeps (runSweeps s xs).1 ys).2) := by
  induction xs generalizing s with
  | nil => simp [runSweeps]
  | cons x xs ih =>
    simp only [List.cons_append, runSweeps, List.append_eq]
    rw [ih]
    simp

theorem runSweeps_events_aux (q : SyncPeer) (hq : q.state = PeerState.PAIRED) :
    ∀ (ts : List Nat) (s : SyncState), s.peers = [q] → q.online = true →
    List.Pairwise (fun a b => a ≤ b) ts →
    (∀ t ∈ ts, q.lastSeen ≤ t ∧ t - q.lastSeen < 2 ^ 32) →
    (runSweeps s ts).2
      = if ts.any (fun t => decide (10000 ≤ t - q.lastSeen))
        then [Event.onPeerUpdate { q with online := false }] else [] := by
  intro ts
  induction ts with
  | nil => intro s _ _ _ _; rfl
  | cons t rest ih =>
    intro s hs hon hmono hbnd
    obtain ⟨h1, h2⟩ := hbnd t (by simp)
    have hel : elapsed t q.lastSeen = t - q.lastSeen := elapsed_eq _ _ h1 h2
    by_cases hcross : 10000 ≤ t - q.lastSeen
    · have hst := checkPeerTimeouts_single_stale s q t hs hq (by omega)
      simp only [runSweeps]
      rw [hst]
      dsimp only
      rw [if_pos hon]
      have hmon2 := (List.pairwise_cons.mp hmono).1
      have habs := runSweeps_offline ({ q with online := false })
        hq rfl rest { s with peers := [{ q with online := false }] } rfl
        (fun u hu => by
          show ¬ elapsed u q.lastSeen < 10000
          obtain ⟨g1, g2⟩ := hbnd u (List.mem_cons_of_mem _ hu)
          have hel2 : elapsed u q.lastSeen = u - q.lastSeen :=
            elapsed_eq _ _ g1 g2
          have := hmon2 u hu
          omega)
      rw [habs.2]
      simp [hcross]
    · have hst := checkPeerTimeouts_single_live s q t hs hq (by omega)
      simp only [runSweeps]
      rw [hst]
      dsimp only
      rw [setOnline_eta q true hon]
      have hseta : ({ s with peers := [q] } : SyncState) = s := by
        rw [← hs]
      rw [hseta, ih s hs hon (List.pairwise_cons.mp hmono).2
        (fun u hu => hbnd u (List.mem_cons_of_mem _ hu))]
      simp [hcross]

/-- C4: for a PAIRED peer (single-record registry) that receives no
further messages, a run of liveness sweeps at nondecreasing clock values
fires `onPeerUpdate` exactly once — as soon as a sweep sees
`now - lastSeen ≥ 10000` — and never if no sweep does; after any prefix
of sweeps all strictly fresher than 10000 ms the peer is still online and
no callback has fired, and at the first sweep with
`now - lastSeen ≥ 10000` the flag flips to false with the single
callback. -/
theorem sweepOffline_once (s : SyncState) (q : SyncPeer) (ts : List Nat)
    (hs : s.peers = [q]) (hq : q.state = PeerState.PAIRED)
    (hon : q.online = true)
    (hmono : List.Pairwise (fun a b => a ≤ b) ts)
    (hbnd : ∀ t ∈ ts, q.lastSeen ≤ t ∧ t - q.lastSeen < 2 ^ 32) :
    ((runSweeps s ts).2
      = if ts.any (fun t => decide (10000 ≤ t - q.lastSeen))
        then [Event.onPeerUpdate { q with online := false }] else [])
    ∧ (∀ pre post, ts = pre ++ post →
        (∀ u ∈ pre, u - q.lastSeen < 10000) →
        (runSweeps s pre).1.peers = [q] ∧ (runSweeps s pre).2 = [])
    ∧ (∀ pre t post, ts = pre ++ t :: post →
        (∀ u ∈ pre, u - q.lastSeen < 10000) →
        10000 ≤ t - q.lastSeen →
        (runSweeps s (pre ++ [t])).1.peers = [{ q with online := false }]
        ∧ (runSweeps s (pre ++ [t])).2
            = [Event.onPeerUpdate { q with online := false }]) := by
  refine ⟨runSweeps_events_aux q hq ts s hs hon hmono hbnd, ?_, ?_⟩
  · intro pre post heq hpre
    have hlive := runSweeps_live q hq hon pre s hs
      (fun u hu => by
        have hmem : u ∈ ts := by rw [heq]; exact List.mem_append_left _ hu
        exact ⟨(hbnd u hmem).1, (hbnd u hmem).2, hpre u hu⟩)
    rw [hlive]
    exact ⟨hs, rfl⟩
  · intro pre t post heq hpre hcross
    have hmem : t ∈ ts := by
      rw [heq]
      exact List.mem_append_right _ (by simp)
    obtain ⟨h1, h2⟩ := hbnd t hmem
    have hel : elapsed t q.lastSeen = t - q.lastSeen := elapsed_eq _ _ h1 h2
    have hlive := runSweeps_live q hq hon pre s hs
      (fun u hu => by
        have hmemu : u ∈ ts := by rw [heq]; exact List.mem_append_left _ hu
        exact ⟨(hbnd u hmemu).1, (hbnd u hmemu).2, hpre u hu⟩)
    rw [runSweeps_append, hlive]
    dsimp only
    have hst := checkPeerTimeouts_single_stale s q t hs hq (by omega)
    simp only [runSweeps]
    rw [hst]
    dsimp only
    rw [if_pos hon]
    exact ⟨rfl, by simp⟩

/-- Witness for C4: the concrete paired peer last heard at clock 0; the
sweeps at 5000, 11000 and 20000 ms flip it offline once, with exactly one
`onPeerUpdate`. -/
theorem sweepOffline_once_witness :
    (runSweeps exPaired [5000, 11000, 20000]).2
      = [Event.onPeerUpdate { exPeerB with online := false }]
    ∧ (runSweeps exPaired [5000]).1.peers = [exPeerB]
    ∧ (runSweeps exPaired [5000, 11000]).1.peers
        = [{ exPeerB with online := false }] := by
  have h := sweepOffline_once exPaired exPeerB [5000, 11000, 20000] rfl rfl rfl
    (by decide) (by decide)
  refine ⟨?_, ?_, ?_⟩
  · rw [h.1]
    decide
  · exact (h.2.1 [5000] [11000, 20000] rfl (by decide)).1
  · exact (h.2.2 [5000] 11000 [20000] rfl (by decide) (by decide)).1
